import Mathlib

/-!
Verification development for the virtual-filesystem layer of the `nx`
repository (`src/fs.rs`).  Rust strings are embedded as `List Char`,
machine-sized integers as `Nat`, fallible calls as `Except`, and the opaque
backend filesystem service (the `fspsrv` collaborators, which live outside
the verified core) as explicit response oracles passed to each operation.
-/

namespace NxFs

/-- Decidable equality for `Except`, used to evaluate concrete runs of the
embedded operations. -/
instance {ε α : Type _} [DecidableEq ε] [DecidableEq α] : DecidableEq (Except ε α) := fun a b =>
  match a, b with
  | .ok x, .ok y =>
    if h : x = y then .isTrue (by rw [h]) else .isFalse (fun hc => h (Except.ok.inj hc))
  | .error x, .error y =>
    if h : x = y then .isTrue (by rw [h]) else .isFalse (fun hc => h (Except.error.inj hc))
  | .ok _, .error _ => .isFalse (fun hc => Except.noConfusion hc)
  | .error _, .ok _ => .isFalse (fun hc => Except.noConfusion hc)

/-- Error taxonomy of the layer.  `invalidPath` models the raw `0xBAD`
result returned when unpacking yields an empty path, `deviceNotFound`
models `ResultDeviceNotFound`, `notInitialized` models
`ResultNotInitialized`, `pathNotFound` models the distinguished backend
`ResultPathNotFound`, and `backend` stands for any other backend error. -/
inductive ErrCode where
  | notInitialized
  | invalidPath
  | deviceNotFound
  | pathNotFound
  | backend (code : Nat)
deriving DecidableEq

/-- `PathSegmentType` from `fs.rs`. -/
inductive PathSegmentType where
  | invalid
  | root
  | normal
deriving DecidableEq

/-- `PathSegment` from `fs.rs`: a name together with its classification. -/
structure PathSegment where
  name : List Char
  segment_type : PathSegmentType
deriving DecidableEq

instance : Inhabited PathSegment := ⟨⟨[], .invalid⟩⟩

/-- `type UnpackedPath = Vec<PathSegment>`. -/
abbrev UnpackedPath := List PathSegment

/-- Prepends the character `c` to the first token of a token list (the
inner match of `splitSlash`). -/
def consHead (c : Char) : List (List Char) → List (List Char)
  | [] => [[c]]
  | t :: ts => (c :: t) :: ts

/-- Rust `str::split('/')`: splits on every `/`, keeping empty tokens, and
yields one (empty) token for the empty string. -/
def splitSlash : List Char → List (List Char)
  | [] => [[]]
  | c :: rest =>
    if c = '/' then [] :: splitSlash rest
    else consHead c (splitSlash rest)

/-- One iteration of the token loop in `unpack_path_impl`: a token ending in
the device delimiter is pushed as `Root`, a `".."` token pops the most
recently pushed segment (`Vec::pop` is a silent no-op on an empty vector),
any other token is pushed as `Normal`. -/
def unpack_step (acc : UnpackedPath) (tok : List Char) : UnpackedPath :=
  if tok.getLast? = some ':' then acc ++ [⟨tok, .root⟩]
  else if tok = ['.', '.'] then acc.dropLast
  else acc ++ [⟨tok, .normal⟩]

/-- `unpack_path_impl` from `fs.rs`. -/
def unpack_path_impl (path : List Char) : UnpackedPath :=
  (splitSlash path).foldl unpack_step []

/-- `unpack_path` from `fs.rs`: fails (raw code `0xBAD`, the `InvalidPath`
error) when the unpacked sequence is empty. -/
def unpack_path (path : List Char) : Except ErrCode UnpackedPath :=
  let u := unpack_path_impl path
  if u = [] then .error .invalidPath else .ok u

/-- One iteration of the segment loop in `pack_path`: `Root` segments are
emitted only when `add_root` is set, `Normal` segments are always emitted,
`Invalid` segments are skipped; each emission appends the name plus `/`. -/
def pack_step (add_root : Bool) (path : List Char) (seg : PathSegment) : List Char :=
  match seg.segment_type with
  | .root => if add_root then path ++ seg.name ++ ['/'] else path
  | .normal => path ++ seg.name ++ ['/']
  | .invalid => path

/-- `pack_path` from `fs.rs`: starts from `/` unless `add_root`, emits the
segments, and finally drops one trailing `/` when the accumulated length
exceeds 1 (the minimum path stays exactly `/`). -/
def pack_path (unpacked : UnpackedPath) (add_root : Bool) : List Char :=
  let init : List Char := if add_root then [] else ['/']
  let path := unpacked.foldl (pack_step add_root) init
  if path.length > 1 then path.dropLast else path

/-- `Device` from `fs.rs`; the shared backend filesystem reference is
embedded as a numeric identifier. -/
structure Device where
  root_name : PathSegment
  fs : Nat
deriving DecidableEq

/-- The process-wide state of the layer: the `G_FSPSRV_SESSION` cell
(`session = true` iff the proxy object is non-null) and the `G_DEVICES`
registry. -/
structure FsState where
  session : Bool
  devices : List Device
deriving DecidableEq

/-- `is_initialized` from `fs.rs`: the session object is non-null. -/
def is_initialized (st : FsState) : Bool := st.session

/-- `find_device_by_name` from `fs.rs`: linear scan of the registry, first
device whose stored root name equals the queried segment's name wins;
`ResultDeviceNotFound` otherwise. -/
def find_device_by_name (name : PathSegment) (st : FsState) : Except ErrCode Nat :=
  match st.devices.find? (fun d => d.root_name.name == name.name) with
  | some d => .ok d.fs
  | none => .error .deviceNotFound

/-- `mount` from `fs.rs`: gated on initialization; stores the root name as
the given name with the `:` delimiter appended, pushing at the end of the
registry. -/
def mount (name : List Char) (fs : Nat) (st : FsState) : Except ErrCode FsState :=
  if !is_initialized st then .error .notInitialized
  else .ok { st with devices := st.devices ++ [⟨⟨name ++ [':'], .root⟩, fs⟩] }

/-- `unmount` from `fs.rs`: retains every device whose stored root name
differs from the given string, comparing verbatim.  Note: no
initialization gate and no failure path (it returns `()` in the source). -/
def unmount (name : List Char) (st : FsState) : FsState :=
  { st with devices := st.devices.filter (fun d => d.root_name.name != name) }

/-- `mount_sd_card` from `fs.rs`: gated on initialization; asks the session
for the SD-card filesystem (its response is the `sd_res` oracle) and then
mounts it under the given name. -/
def mount_sd_card (sd_res : Except ErrCode Nat) (name : List Char) (st : FsState) :
    Except ErrCode FsState :=
  if !is_initialized st then .error .notInitialized
  else
    match sd_res with
    | .error e => .error e
    | .ok fs => mount name fs st

/-- Modelled from the spec: a backend file object (`fspsrv::File`, outside
the verified core) is consumed only through `get_size`; `size_res` is the
oracle response of that query. -/
structure BFile where
  size_res : Except ErrCode Nat
deriving DecidableEq

/-- `File` from `fs.rs`: a backend file reference plus the local cursor. -/
structure File where
  file : BFile
  offset : Nat
deriving DecidableEq

/-- `Whence` from `fs.rs`. -/
inductive Whence where
  | Start
  | Current
  | End
deriving DecidableEq

/-- `File::get_size` from `fs.rs`: delegates to the backend. -/
def File.get_size (self : File) : Except ErrCode Nat :=
  self.file.size_res

/-- `File::seek` from `fs.rs`: `Start` sets the cursor, `Current` adds to
it, `End` sets it to the backend size *plus* the offset (the source adds,
it does not subtract). -/
def File.seek (self : File) (offset : Nat) (whence : Whence) : Except ErrCode File :=
  match whence with
  | .Start => .ok { self with offset := offset }
  | .Current => .ok { self with offset := self.offset + offset }
  | .End =>
    match self.get_size with
    | .error e => .error e
    | .ok size => .ok { self with offset := size + offset }

/-- `File::read` from `fs.rs`: `read_res` is the backend's response to the
read issued at the current cursor for `size` bytes (the number of bytes
actually transferred, or an error).  On success the cursor advances by the
requested `size` and the backend-reported count is returned. -/
def File.read (self : File) (read_res : Except ErrCode Nat) (size : Nat) :
    Except ErrCode (Nat × File) :=
  match read_res with
  | .error e => .error e
  | .ok read_size => .ok (read_size, { self with offset := self.offset + size })

/-- `FileOpenOption` from `fs.rs`: a bit-set over
`{Create = bit 0, Read = bit 1, Write = bit 2, Append = bit 3}`, embedded
as one flag per bit. -/
structure FileOpenOption where
  create : Bool
  read : Bool
  write : Bool
  append : Bool
deriving DecidableEq

/-- Modelled from the spec: `fspsrv::FileOpenMode` (outside the verified
core) is a bit-set over `{Read, Write, Append}`, embedded as one flag per
bit. -/
structure FileOpenMode where
  read : Bool
  write : Bool
  append : Bool
deriving DecidableEq

/-- `convert_file_open_option` from `fs.rs`: starts from the empty mode and
ors in the `Read`, `Write` and `Append` bits; the `Create` bit is never
passed to the backend. -/
def convert_file_open_option (option : FileOpenOption) : FileOpenMode :=
  let mode : FileOpenMode := ⟨false, false, false⟩
  let mode := if option.read then { mode with read := true } else mode
  let mode := if option.write then { mode with write := true } else mode
  let mode := if option.append then { mode with append := true } else mode
  mode

/-- The initial cursor computed at the end of `open_file`:
`file.get_size().unwrap_or(0)` when `Append` was requested, `0`
otherwise. -/
def initial_offset (option : FileOpenOption) (f : BFile) : Nat :=
  match option.append with
  | true =>
    match f.size_res with
    | .ok s => s
    | .error _ => 0
  | false => 0

/-- One backend call recorded while running `open_file`: an open with the
converted mode, a create with its attribute (`0` = `FileAttribute::None`)
and size, or a `get_size` query. -/
inductive BEvent where
  | openCall (mode : FileOpenMode)
  | createCall (attr : Nat) (size : Nat)
  | sizeCall
deriving DecidableEq

/-- The `get_size` call recorded while computing the initial cursor: it is
issued exactly when `Append` was requested. -/
def size_events (option : FileOpenOption) : List BEvent :=
  if option.append then [.sizeCall] else []

/-- Modelled from the spec: the backend filesystem's responses to the calls
`open_file` can issue on one path — the first open, the corrective
`create_file`, and the retried open (the backend is stateful, so the two
opens may answer differently). -/
structure OpenBackend where
  first_open : Except ErrCode BFile
  create_res : Except ErrCode Unit
  second_open : Except ErrCode BFile
deriving DecidableEq

/-- The body of `open_file` from `fs.rs` after device resolution, paired
with the list of backend calls it makes: try the open; on exactly
`PathNotFound` with the `Create` option requested, create the file with
`FileAttribute::None` and size `0` and retry the open once with the same
mode, propagating a create or retry failure as-is; propagate any other
failure immediately; on success compute the initial cursor. -/
def open_file_resolved (b : OpenBackend) (option : FileOpenOption) :
    Except ErrCode File × List BEvent :=
  let mode := convert_file_open_option option
  match b.first_open with
  | .ok f => (.ok ⟨f, initial_offset option f⟩, [.openCall mode] ++ size_events option)
  | .error rc =>
    if rc = .pathNotFound ∧ option.create = true then
      match b.create_res with
      | .error e => (.error e, [.openCall mode, .createCall 0 0])
      | .ok _ =>
        match b.second_open with
        | .error e => (.error e, [.openCall mode, .createCall 0 0, .openCall mode])
        | .ok f =>
          (.ok ⟨f, initial_offset option f⟩,
            [.openCall mode, .createCall 0 0, .openCall mode] ++ size_events option)
    else (.error rc, [.openCall mode])

/-- `open_file` from `fs.rs`: initialization gate, unpack, device
resolution from the first segment, repack with `add_root = false`, then the
open/create/retry logic against the resolved backend (`env` maps a device
and a backend-local path to that backend's responses). -/
def open_file (env : Nat → List Char → OpenBackend) (path : List Char)
    (option : FileOpenOption) (st : FsState) : Except ErrCode File × List BEvent :=
  if !is_initialized st then (.error .notInitialized, [])
  else
    match unpack_path path with
    | .error e => (.error e, [])
    | .ok up =>
      match find_device_by_name up.head! st with
      | .error e => (.error e, [])
      | .ok fs => open_file_resolved (env fs (pack_path up false)) option

/-- `create_file` from `fs.rs`: gate, unpack, resolve, repack, then one
backend call (`bk` is the oracle for the backend's
`create_file(attribute, size, path)`). -/
def create_file (bk : Nat → Nat → Nat → List Char → Except ErrCode Unit)
    (path : List Char) (size : Nat) (attr : Nat) (st : FsState) : Except ErrCode Unit :=
  if !is_initialized st then .error .notInitialized
  else
    match unpack_path path with
    | .error e => .error e
    | .ok up =>
      match find_device_by_name up.head! st with
      | .error e => .error e
      | .ok fs => bk fs attr size (pack_path up false)

/-- `delete_file` from `fs.rs`: gate, unpack, resolve, repack, one backend
call. -/
def delete_file (bk : Nat → List Char → Except ErrCode Unit)
    (path : List Char) (st : FsState) : Except ErrCode Unit :=
  if !is_initialized st then .error .notInitialized
  else
    match unpack_path path with
    | .error e => .error e
    | .ok up =>
      match find_device_by_name up.head! st with
      | .error e => .error e
      | .ok fs => bk fs (pack_path up false)

/-- `create_directory` from `fs.rs`: gate, unpack, resolve, repack, one
backend call. -/
def create_directory (bk : Nat → List Char → Except ErrCode Unit)
    (path : List Char) (st : FsState) : Except ErrCode Unit :=
  if !is_initialized st then .error .notInitialized
  else
    match unpack_path path with
    | .error e => .error e
    | .ok up =>
      match find_device_by_name up.head! st with
      | .error e => .error e
      | .ok fs => bk fs (pack_path up false)

/-- `delete_directory` from `fs.rs`: gate, unpack, resolve, repack, one
backend call (`delete_directory_recursively` on the backend). -/
def delete_directory (bk : Nat → List Char → Except ErrCode Unit)
    (path : List Char) (st : FsState) : Except ErrCode Unit :=
  if !is_initialized st then .error .notInitialized
  else
    match unpack_path path with
    | .error e => .error e
    | .ok up =>
      match find_device_by_name up.head! st with
      | .error e => .error e
      | .ok fs => bk fs (pack_path up false)

/-- `get_entry_type` from `fs.rs`: gate, unpack, resolve, repack, one
backend call returning the entry type (embedded as a number). -/
def get_entry_type (bk : Nat → List Char → Except ErrCode Nat)
    (path : List Char) (st : FsState) : Except ErrCode Nat :=
  if !is_initialized st then .error .notInitialized
  else
    match unpack_path path with
    | .error e => .error e
    | .ok up =>
      match find_device_by_name up.head! st with
      | .error e => .error e
      | .ok fs => bk fs (pack_path up false)

/-- `format_path` from `fs.rs`: gate, unpack, resolve, repack, and return
the resolved device with the backend-local path, performing no backend
operation. -/
def format_path (path : List Char) (st : FsState) : Except ErrCode (Nat × List Char) :=
  if !is_initialized st then .error .notInitialized
  else
    match unpack_path path with
    | .error e => .error e
    | .ok up =>
      match find_device_by_name up.head! st with
      | .error e => .error e
      | .ok fs => .ok (fs, pack_path up false)

/-- Modelled from the spec: a backend directory object (`fspsrv::Directory`,
outside the verified core) answers `get_entry_count` once and then a
sequence of `read(buffer)` calls; `read_res k` is the response to the
`k`-th read — the reported number of entries together with the entries the
backend wrote into the front of the 16-slot buffer. -/
structure DirObj where
  entry_count_res : Except ErrCode Nat
  read_res : Nat → Except ErrCode (Nat × List Nat)

/-- `Directory` from `fs.rs`: the backend reference (kept as its response
oracle plus the count `reads` of read calls issued so far), the cursor
`offset`, the entry count captured at construction, and the buffered
entries.  Directory entries are embedded as numbers, the zeroed entry
being `0`. -/
structure Directory where
  read_res : Nat → Except ErrCode (Nat × List Nat)
  reads : Nat
  offset : Nat
  entry_count : Nat
  entries : List Nat

/-- `Directory::new` from `fs.rs`: queries `get_entry_count` once and
starts with cursor 0 and an empty buffer. -/
def Directory.new (dob : DirObj) : Except ErrCode Directory :=
  match dob.entry_count_res with
  | .error e => .error e
  | .ok entry_count => .ok ⟨dob.read_res, 0, 0, entry_count, []⟩

/-- `Directory::refresh` from `fs.rs`: when the cursor has reached the end
of the buffer, allocate a 16-slot zeroed batch, let the backend fill its
front and report how many entries it wrote, call `Vec::shrink_to(read)` —
which only lowers *capacity* and never changes the length — and append the
whole 16-slot batch to the buffer. -/
def Directory.refresh (self : Directory) : Except ErrCode Directory :=
  if self.entries.length ≤ self.offset then
    match self.read_res self.reads with
    | .error e => .error e
    | .ok (_read, filled) =>
      let new_entries := (filled ++ List.replicate 16 0).take 16
      .ok { self with reads := self.reads + 1, entries := self.entries ++ new_entries }
  else .ok self

/-- `Directory::rewind` from `fs.rs`: reset the cursor and refresh. -/
def Directory.rewind (self : Directory) : Except ErrCode Directory :=
  Directory.refresh { self with offset := 0 }

/-- `Directory::next` from `fs.rs`: exhausted when the buffer length equals
the captured entry count; otherwise refresh, then yield nothing when the
cursor equals the entry count, else return the buffered entry at the
cursor and advance it.  The source indexes `entries[offset]`, which panics
out of bounds; the embedding uses `getD` with default `0` and the
in-bounds fact is proved separately. -/
def Directory.next (self : Directory) : Except ErrCode (Option Nat × Directory) :=
  if self.entries.length = self.entry_count then .ok (none, self)
  else
    match self.refresh with
    | .error e => .error e
    | .ok d =>
      if d.offset = d.entry_count then .ok (none, d)
      else .ok (some (d.entries.getD d.offset 0), { d with offset := d.offset + 1 })

/-- `open_directory` from `fs.rs`: gate, unpack, resolve, repack, open the
backend directory (`env` maps device, local path and open mode to the
response) and wrap it via `Directory::new`. -/
def open_directory (env : Nat → List Char → Nat → Except ErrCode DirObj)
    (path : List Char) (mode : Nat) (st : FsState) : Except ErrCode Directory :=
  if !is_initialized st then .error .notInitialized
  else
    match unpack_path path with
    | .error e => .error e
    | .ok up =>
      match find_device_by_name up.head! st with
      | .error e => .error e
      | .ok fs =>
        match env fs (pack_path up false) mode with
        | .error e => .error e
        | .ok dob => Directory.new dob

/-- Runs `n` successive `next()` calls on a directory handle, collecting
the yielded options and the final handle state. -/
def runNexts : Nat → Directory → Except ErrCode (List (Option Nat) × Directory)
  | 0, d => .ok ([], d)
  | n + 1, d =>
    match d.next with
    | .error e => .error e
    | .ok (o, d2) =>
      match runNexts n d2 with
      | .error e => .error e
      | .ok (os, dF) => .ok (o :: os, dF)

/-- The path string made of `k + 1` `".."` tokens joined by `/`
(`".."`, `"../.."`, `"../../.."`, ...). -/
def dotdotPath : Nat → List Char
  | 0 => ['.', '.']
  | k + 1 => dotdotPath k ++ '/' :: ['.', '.']

/-- Concatenation of a list of names, each followed by one `/`. -/
def emit : List (List Char) → List Char
  | [] => []
  | n :: rest => n ++ '/' :: emit rest

/-- The names of the `Normal` segments of an unpacked path, in order. -/
def normalNames : UnpackedPath → List (List Char)
  | [] => []
  | s :: rest =>
    match s.segment_type with
    | .normal => s.name :: normalNames rest
    | _ => normalNames rest

/-- The directory-handle invariant: the cursor never exceeds the buffered
length. -/
def dirInv (d : Directory) : Prop := d.offset ≤ d.entries.length

/-- The backend directory of the twenty-entry iteration scenario: the
first read fills 16 entries, the second fills the remaining 4. -/
def twentyRead : Nat → Except ErrCode (Nat × List Nat) := fun k =>
  if k = 0 then .ok (16, (List.range 16).map (fun i => i + 1))
  else if k = 1 then .ok (4, [17, 18, 19, 20])
  else .ok (0, [])

lemma consHead_ne_nil (c : Char) (xs : List (List Char)) : consHead c xs ≠ [] := by
  cases xs <;> simp [consHead]

lemma splitSlash_ne_nil (l : List Char) : splitSlash l ≠ [] := by
  cases l with
  | nil => simp [splitSlash]
  | cons c rest =>
    rw [splitSlash]
    by_cases hc : c = '/'
    · simp [hc]
    · rw [if_neg hc]
      exact consHead_ne_nil c _

lemma splitSlash_append_slash (a b : List Char) :
    splitSlash (a ++ '/' :: b) = splitSlash a ++ splitSlash b := by
  induction a with
  | nil =>
    rw [List.nil_append]
    rw [show splitSlash ('/' :: b) = [] :: splitSlash b from by rw [splitSlash]; simp]
    rfl
  | cons c a ih =>
    rw [List.cons_append, splitSlash, splitSlash]
    by_cases hc : c = '/'
    · rw [if_pos hc, if_pos hc, ih]
      rfl
    · rw [if_neg hc, if_neg hc, ih]
      cases ha : splitSlash a with
      | nil => exact absurd ha (splitSlash_ne_nil a)
      | cons t ts => simp [consHead]

lemma splitSlash_dotdotPath (k : Nat) :
    splitSlash (dotdotPath k) = List.replicate (k + 1) ['.', '.'] := by
  induction k with
  | zero => rfl
  | succ k ih =>
    rw [dotdotPath, splitSlash_append_slash, ih]
    rw [show splitSlash ['.', '.'] = [['.', '.']] from rfl, ← List.replicate_succ']

lemma foldl_unpack_dotdot (m : Nat) :
    List.foldl unpack_step [] (List.replicate m ['.', '.']) = [] := by
  induction m with
  | zero => rfl
  | succ m ih =>
    rw [List.replicate_succ, List.foldl_cons,
      show unpack_step [] ['.', '.'] = [] from rfl]
    exact ih

lemma unpack_dotdotPath (k : Nat) : unpack_path (dotdotPath k) = .error .invalidPath := by
  have himpl : unpack_path_impl (dotdotPath k) = [] := by
    unfold unpack_path_impl
    rw [splitSlash_dotdotPath, foldl_unpack_dotdot]
  unfold unpack_path
  rw [himpl]
  rfl

lemma emit_append (a b : List (List Char)) : emit (a ++ b) = emit a ++ emit b := by
  induction a with
  | nil => rfl
  | cons n rest ih => simp [emit, ih]

lemma foldl_pack_step_false (segs : UnpackedPath) (acc : List Char) :
    segs.foldl (pack_step false) acc = acc ++ emit (normalNames segs) := by
  induction segs generalizing acc with
  | nil => simp [normalNames, emit]
  | cons s rest ih =>
    rw [List.foldl_cons, ih]
    cases hty : s.segment_type <;> simp [pack_step, normalNames, hty, emit]

lemma dir_new_inv (dob : DirObj) (d : Directory) (h : Directory.new dob = .ok d) :
    dirInv d := by
  cases hec : dob.entry_count_res with
  | error e => simp [Directory.new, hec] at h
  | ok n =>
    simp only [Directory.new, hec] at h
    cases h
    exact Nat.le_refl 0

lemma dir_refresh_spec (d d2 : Directory) (hinv : dirInv d) (h : d.refresh = .ok d2) :
    d2.offset < d2.entries.length ∧ d2.offset = d.offset ∧ d2.entry_count = d.entry_count := by
  unfold Directory.refresh at h
  by_cases hc : d.entries.length ≤ d.offset
  · rw [if_pos hc] at h
    cases hr : d.read_res d.reads with
    | error e => rw [hr] at h; exact absurd h (by simp)
    | ok pr =>
      obtain ⟨r, filled⟩ := pr
      rw [hr] at h
      simp only [Except.ok.injEq] at h
      subst h
      have hofs : d.offset = d.entries.length := Nat.le_antisymm hinv hc
      refine ⟨?_, rfl, rfl⟩
      simp only [List.length_append, List.length_take, List.length_replicate]
      have hmin : min 16 (filled.length + 16) = 16 := Nat.min_eq_left (by omega)
      omega
  · rw [if_neg hc] at h
    simp only [Except.ok.injEq] at h
    subst h
    exact ⟨Nat.lt_of_not_le hc, rfl, rfl⟩

lemma dir_next_inv (d : Directory) (o : Option Nat) (d2 : Directory)
    (hinv : dirInv d) (h : d.next = .ok (o, d2)) : dirInv d2 := by
  unfold Directory.next at h
  split at h
  · simp only [Except.ok.injEq, Prod.mk.injEq] at h
    rw [← h.2]
    exact hinv
  · split at h
    next e heq => exact Except.noConfusion h
    next dr heq =>
      have hspec := dir_refresh_spec d dr hinv heq
      split at h
      · simp only [Except.ok.injEq, Prod.mk.injEq] at h
        rw [← h.2]
        exact Nat.le_of_lt hspec.1
      · simp only [Except.ok.injEq, Prod.mk.injEq] at h
        rw [← h.2]
        exact hspec.1

lemma dir_rewind_inv (d d2 : Directory) (h : d.rewind = .ok d2) : dirInv d2 := by
  unfold Directory.rewind at h
  exact Nat.le_of_lt (dir_refresh_spec { d with offset := 0 } d2 (Nat.zero_le _) h).1

/-- C1 (counterexample): after `mount("sdmc", fsA)` (stored root name
`"sdmc:"`), `unmount("sdmc")` with the bare name removes nothing — the
retain predicate compares the stored name (delimiter included) verbatim —
so resolving the first segment `"sdmc:"` still returns `fsA` instead of
failing with `DeviceNotFound`. -/
theorem unmount_bare_name_counterexample :
    mount "sdmc".toList 7 ⟨true, []⟩ =
      .ok ⟨true, [⟨⟨"sdmc:".toList, .root⟩, 7⟩]⟩ ∧
    unmount "sdmc".toList ⟨true, [⟨⟨"sdmc:".toList, .root⟩, 7⟩]⟩ =
      ⟨true, [⟨⟨"sdmc:".toList, .root⟩, 7⟩]⟩ ∧
    find_device_by_name ⟨"sdmc:".toList, .root⟩
      (unmount "sdmc".toList ⟨true, [⟨⟨"sdmc:".toList, .root⟩, 7⟩]⟩) = .ok 7 := by
  decide

/-- C1 (amended): mounting `name` on an initialized empty registry stores
the root name `name ++ ":"`; resolving a segment named `name ++ ":"`
returns the mounted filesystem; `unmount` with the bare `name` is a no-op
(the stored name, delimiter included, never equals it) and resolution
still succeeds; `unmount` with `name ++ ":"` removes the device, after
which resolution fails with `DeviceNotFound`. -/
theorem mount_unmount_resolution_amended (name : List Char) (fs : Nat) :
    mount name fs ⟨true, []⟩ = .ok ⟨true, [⟨⟨name ++ [':'], .root⟩, fs⟩]⟩ ∧
    find_device_by_name ⟨name ++ [':'], .root⟩ ⟨true, [⟨⟨name ++ [':'], .root⟩, fs⟩]⟩ =
      .ok fs ∧
    unmount name ⟨true, [⟨⟨name ++ [':'], .root⟩, fs⟩]⟩ =
      ⟨true, [⟨⟨name ++ [':'], .root⟩, fs⟩]⟩ ∧
    find_device_by_name ⟨name ++ [':'], .root⟩
      (unmount (name ++ [':']) ⟨true, [⟨⟨name ++ [':'], .root⟩, fs⟩]⟩) =
      .error .deviceNotFound := by
  have hne : name ++ [':'] ≠ name := by
    intro h
    have := congrArg List.length h
    simp at this
  refine ⟨?_, ?_, ?_, ?_⟩
  · simp [mount, is_initialized]
  · simp [find_device_by_name, List.find?]
  · have hbne : (name ++ [':'] != name) = true := bne_iff_ne.mpr hne
    simp [unmount, List.filter, hbne]
  · simp [unmount, find_device_by_name, List.filter]

/-- C3 (counterexample): with the session absent, `unmount` does not fail
with `NotInitialized` (it cannot fail at all); it performs its removal
effect on the registry. -/
theorem unmount_without_init_counterexample :
    unmount "sdmc:".toList ⟨false, [⟨⟨"sdmc:".toList, .root⟩, 7⟩]⟩ = ⟨false, []⟩ := by
  decide

/-- C3 (amended): with the session absent every gated operation —
`mount`, `mount_sd_card`, `create_file`, `delete_file`,
`create_directory`, `delete_directory`, `get_entry_type`, `open_file`,
`open_directory`, `format_path` — fails with `NotInitialized` before any
other effect; `unmount`, however, has no initialization gate: it keeps the
session flag and filters the registry unconditionally. -/
theorem not_initialized_gating_amended (devs : List Device) :
    (∀ name fs, mount name fs ⟨false, devs⟩ = .error .notInitialized) ∧
    (∀ sd_res name, mount_sd_card sd_res name ⟨false, devs⟩ = .error .notInitialized) ∧
    (∀ bk path size attr, create_file bk path size attr ⟨false, devs⟩ =
      .error .notInitialized) ∧
    (∀ bk path, delete_file bk path ⟨false, devs⟩ = .error .notInitialized) ∧
    (∀ bk path, create_directory bk path ⟨false, devs⟩ = .error .notInitialized) ∧
    (∀ bk path, delete_directory bk path ⟨false, devs⟩ = .error .notInitialized) ∧
    (∀ bk path, get_entry_type bk path ⟨false, devs⟩ = .error .notInitialized) ∧
    (∀ env path opt, open_file env path opt ⟨false, devs⟩ = (.error .notInitialized, [])) ∧
    (∀ env path mode, open_directory env path mode ⟨false, devs⟩ =
      .error .notInitialized) ∧
    (∀ path, format_path path ⟨false, devs⟩ = .error .notInitialized) ∧
    (∀ name, (unmount name ⟨false, devs⟩).session = false ∧
      ∀ d, d ∈ (unmount name ⟨false, devs⟩).devices ↔
        (d ∈ devs ∧ d.root_name.name ≠ name)) := by
  refine ⟨fun _ _ => rfl, fun _ _ => rfl, fun _ _ _ _ => rfl, fun _ _ => rfl,
    fun _ _ => rfl, fun _ _ => rfl, fun _ _ => rfl, fun _ _ _ => rfl,
    fun _ _ _ => rfl, fun _ => rfl, fun name => ⟨rfl, fun d => ?_⟩⟩
  simp [unmount, List.mem_filter, bne_iff_ne]

/-- C4 (code bug evidence): at a refresh where the backend reports 4
entries written into the 16-slot batch, the buffered list grows by all 16
slots — the 4 real entries followed by 12 zeroed padding entries — because
`Vec::shrink_to(read)` only lowers capacity and never truncates the
length.  The claim (and the spec's intent) says the batch is truncated to
the reported 4. -/
theorem refresh_appends_whole_batch :
    (Directory.refresh ⟨fun _ => .ok (4, [1, 2, 3, 4]), 0, 0, 20, []⟩).map
      (fun d => d.entries) = .ok ([1, 2, 3, 4] ++ List.replicate 12 0) := by
  decide

/-- C5: over a backend directory reporting 20 total entries whose reads
fill 16 then 4 entries, the handle starts with cursor 0 and an empty
buffer, and 21 successive `next()` calls issue exactly 2 backend reads,
yield the 20 entries in order, and return `none` on the 21st call. -/
theorem directory_iteration_twenty_entries :
    Directory.new ⟨.ok 20, twentyRead⟩ = .ok ⟨twentyRead, 0, 0, 20, []⟩ ∧
    (runNexts 21 ⟨twentyRead, 0, 0, 20, []⟩).map (fun p => (p.1, p.2.reads)) =
      .ok ((List.range 20).map (fun i => some (i + 1)) ++ [none], 2) := by
  exact ⟨rfl, by decide⟩

/-- C6: a successful `read` advances the cursor by exactly the requested
`size`, whatever byte count `n` the backend reports as transferred; in
particular a read requesting 50 bytes that transfers only 30 still moves
the cursor from 0 to 50. -/
theorem read_advances_by_requested_size (f : File) (n size : Nat) :
    File.read f (.ok n) size = .ok (n, { f with offset := f.offset + size }) ∧
    File.read ⟨⟨.ok 100⟩, 0⟩ (.ok 30) 50 = .ok (30, ⟨⟨.ok 100⟩, 50⟩) :=
  ⟨rfl, rfl⟩

/-- C7: `seek(offset, Start)` sets the cursor, `seek(offset, Current)`
adds to it, `seek(offset, End)` sets it to the backend size plus the
offset (addition, not subtraction); `seek(10, Start)` then
`seek(5, Current)` yields 15, and `seek(0, End)` on a file of size 100
yields 100. -/
theorem seek_semantics (f : File) (off : Nat) :
    f.seek off .Start = .ok { f with offset := off } ∧
    f.seek off .Current = .ok { f with offset := f.offset + off } ∧
    (∀ sz rest : Nat, File.seek ⟨⟨.ok sz⟩, rest⟩ off .End = .ok ⟨⟨.ok sz⟩, sz + off⟩) ∧
    (f.seek 10 .Start).bind (fun f1 => f1.seek 5 .Current) = .ok { f with offset := 15 } ∧
    File.seek ⟨⟨.ok 100⟩, f.offset⟩ 0 .End = .ok ⟨⟨.ok 100⟩, 100⟩ :=
  ⟨rfl, rfl, fun _ _ => rfl, rfl, rfl⟩

/-- C8: a path consisting solely of `".."` tokens (any number of them)
unpacks to the empty segment sequence — each `".."` pops the most recently
appended segment and popping the empty sequence is a silent no-op — so
`unpack_path` fails with `InvalidPath` and every facade operation on such
a path, in an initialized state, fails with `InvalidPath`. -/
theorem dotdot_only_path_invalid (k : Nat) (devs : List Device) :
    unpack_path_impl (dotdotPath k) = [] ∧
    unpack_path (dotdotPath k) = .error .invalidPath ∧
    (∀ bk size attr, create_file bk (dotdotPath k) size attr ⟨true, devs⟩ =
      .error .invalidPath) ∧
    (∀ bk, delete_file bk (dotdotPath k) ⟨true, devs⟩ = .error .invalidPath) ∧
    (∀ bk, create_directory bk (dotdotPath k) ⟨true, devs⟩ = .error .invalidPath) ∧
    (∀ bk, delete_directory bk (dotdotPath k) ⟨true, devs⟩ = .error .invalidPath) ∧
    (∀ bk, get_entry_type bk (dotdotPath k) ⟨true, devs⟩ = .error .invalidPath) ∧
    (∀ env opt, open_file env (dotdotPath k) opt ⟨true, devs⟩ =
      (.error .invalidPath, [])) ∧
    (∀ env mode, open_directory env (dotdotPath k) mode ⟨true, devs⟩ =
      .error .invalidPath) ∧
    format_path (dotdotPath k) ⟨true, devs⟩ = .error .invalidPath := by
  have himpl : unpack_path_impl (dotdotPath k) = [] := by
    unfold unpack_path_impl
    rw [splitSlash_dotdotPath, foldl_unpack_dotdot]
  have hu : unpack_path (dotdotPath k) = .error .invalidPath := unpack_dotdotPath k
  refine ⟨himpl, hu, fun bk size attr => ?_, fun bk => ?_, fun bk => ?_, fun bk => ?_,
    fun bk => ?_, fun env opt => ?_, fun env mode => ?_, ?_⟩ <;>
    simp [create_file, delete_file, create_directory, delete_directory, get_entry_type,
      open_file, open_directory, format_path, is_initialized, hu]

/-- C9 (counterexample): packing two `Normal` segments with empty names
with `add_root = false` yields `"//"`, whose length exceeds 1 and which
ends in `/` — refuting the claim as stated for arbitrary segment
sequences. -/
theorem pack_empty_names_counterexample :
    (pack_path [⟨[], .normal⟩, ⟨[], .normal⟩] false).length > 1 ∧
    (pack_path [⟨[], .normal⟩, ⟨[], .normal⟩] false).getLast? = some '/' := by
  decide

/-- C9 (amended): with `add_root = false`, `pack_path []` and `pack_path`
of a `Root`-only sequence yield exactly `"/"`; more generally a sequence
with no `Normal` segment packs to `"/"`; and provided every `Normal`
segment's name is nonempty and contains no `/`, a packed result of length
greater than 1 never ends in `/`.  (Unrestricted the claim fails: two
`Normal` segments with empty names pack to `"//"`.) -/
theorem pack_no_trailing_slash_amended (segs : UnpackedPath)
    (hnames : ∀ n ∈ normalNames segs, n ≠ [] ∧ '/' ∉ n) :
    pack_path [] false = ['/'] ∧
    pack_path [⟨"sdmc:".toList, .root⟩] false = ['/'] ∧
    (normalNames segs = [] → pack_path segs false = ['/']) ∧
    ((pack_path segs false).length > 1 → (pack_path segs false).getLast? ≠ some '/') := by
  refine ⟨by decide, by decide, ?_, ?_⟩
  · intro h0
    simp [pack_path, foldl_pack_step_false, h0, emit]
  · intro hlen
    rcases List.eq_nil_or_concat (normalNames segs) with h0 | ⟨ns, n, hsplit⟩
    · have hp : pack_path segs false = ['/'] := by
        simp [pack_path, foldl_pack_step_false, h0, emit]
      rw [hp] at hlen
      simp at hlen
    · rw [List.concat_eq_append] at hsplit
      have hn : n ∈ normalNames segs := by
        rw [hsplit]
        exact List.mem_append_right _ (List.mem_singleton_self n)
      obtain ⟨hne, hslash⟩ := hnames n hn
      rcases List.eq_nil_or_concat n with rfl | ⟨n2, c, hn2⟩
      · exact absurd rfl hne
      · rw [List.concat_eq_append] at hn2
        have hc : c ∈ n := by
          rw [hn2]
          exact List.mem_append_right _ (List.mem_singleton_self c)
        have hcne : c ≠ '/' := fun h => hslash (h ▸ hc)
        have hbody : segs.foldl (pack_step false) ['/'] = ('/' :: (emit ns ++ n)) ++ ['/'] := by
          rw [foldl_pack_step_false, hsplit, emit_append]
          simp [emit]
        have hp : pack_path segs false = '/' :: (emit ns ++ n) := by
          simp only [pack_path]
          rw [show (if (false : Bool) then ([] : List Char) else ['/']) = ['/'] from rfl]
          rw [hbody, if_pos (by simp), List.dropLast_concat]
        rw [hp, hn2]
        have hlast : ('/' :: (emit ns ++ (n2 ++ [c]))).getLast? = some c := by
          rw [show ('/' :: (emit ns ++ (n2 ++ [c]))) = ('/' :: (emit ns ++ n2)) ++ [c] by simp]
          exact List.getLast?_concat _
        rw [hlast]
        simp [hcne]

/-- C9 (witness): a single `Normal` segment named `"a"` satisfies the name
conditions; it packs to `"/a"`, which has length 2 and does not end in
`/`. -/
theorem pack_no_trailing_slash_amended_witness :
    (pack_path [⟨['a'], PathSegmentType.normal⟩] false).length > 1 ∧
    (pack_path [⟨['a'], PathSegmentType.normal⟩] false).getLast? ≠ some '/' := by
  have h := pack_no_trailing_slash_amended [⟨['a'], PathSegmentType.normal⟩] (by decide)
  exact ⟨by decide, h.2.2.2 (by decide)⟩

lemma open_file_resolves (env : Nat → List Char → OpenBackend) (path : List Char)
    (option : FileOpenOption) (st : FsState) (up : UnpackedPath) (fs : Nat)
    (hinit : is_initialized st = true) (hup : unpack_path path = .ok up)
    (hfs : find_device_by_name up.head! st = .ok fs) :
    open_file env path option st = open_file_resolved (env fs (pack_path up false)) option := by
  simp [open_file, hinit, hup, hfs]

/-- C2: on an initialized state and a path resolving to a mounted device,
`open_file` behaves as follows against the resolved backend.  On a
successful first open the handle wraps the opened file with initial cursor
`initial_offset` and no create call is made.  On any first-open failure
other than `PathNotFound`-with-`Create`, the error propagates immediately
with no create call.  On `PathNotFound` with `Create` requested, the
backend `create_file` is called with empty attributes (`0`) and size `0`;
a create failure propagates as-is; otherwise the open is retried once with
the same converted mode, a retry failure propagates as-is, and a retry
success yields the handle with cursor `initial_offset`.  The initial
cursor is `0` unless `Append` was requested, in which case it is the
backend-reported size, defaulting to `0` when the size query fails. -/
theorem open_file_create_fallback (env : Nat → List Char → OpenBackend) (path : List Char)
    (option : FileOpenOption) (st : FsState) (up : UnpackedPath) (fs : Nat)
    (hinit : is_initialized st = true) (hup : unpack_path path = .ok up)
    (hfs : find_device_by_name up.head! st = .ok fs) :
    (∀ f, (env fs (pack_path up false)).first_open = .ok f →
      open_file env path option st =
        (.ok ⟨f, initial_offset option f⟩,
          [.openCall (convert_file_open_option option)] ++ size_events option)) ∧
    (∀ rc, (env fs (pack_path up false)).first_open = .error rc →
      (rc ≠ .pathNotFound ∨ option.create = false) →
      open_file env path option st =
        (.error rc, [.openCall (convert_file_open_option option)])) ∧
    ((env fs (pack_path up false)).first_open = .error .pathNotFound →
      option.create = true →
      (∀ e, (env fs (pack_path up false)).create_res = .error e →
        open_file env path option st =
          (.error e, [.openCall (convert_file_open_option option), .createCall 0 0])) ∧
      ((env fs (pack_path up false)).create_res = .ok () →
        (∀ e, (env fs (pack_path up false)).second_open = .error e →
          open_file env path option st =
            (.error e, [.openCall (convert_file_open_option option), .createCall 0 0,
              .openCall (convert_file_open_option option)])) ∧
        (∀ f, (env fs (pack_path up false)).second_open = .ok f →
          open_file env path option st =
            (.ok ⟨f, initial_offset option f⟩,
              [.openCall (convert_file_open_option option), .createCall 0 0,
                .openCall (convert_file_open_option option)] ++ size_events option)))) ∧
    (∀ f, option.append = false → initial_offset option f = 0) ∧
    (∀ f s, option.append = true → f.size_res = .ok s → initial_offset option f = s) ∧
    (∀ f e, option.append = true → f.size_res = .error e → initial_offset option f = 0) := by
  have hred := open_file_resolves env path option st up fs hinit hup hfs
  refine ⟨?_, ?_, ?_, ?_, ?_, ?_⟩
  · intro f hf
    rw [hred]
    simp [open_file_resolved, hf]
  · intro rc hrc hor
    have hcond : ¬(rc = ErrCode.pathNotFound ∧ option.create = true) := by
      rcases hor with h | h
      · exact fun hc => h hc.1
      · intro hc
        rw [h] at hc
        exact Bool.false_ne_true hc.2
    rw [hred]
    simp [open_file_resolved, hrc, hcond]
  · intro hpnf hcreate
    constructor
    · intro e he
      rw [hred]
      simp [open_file_resolved, hpnf, hcreate, he]
    · intro hok
      constructor
      · intro e he2
        rw [hred]
        simp [open_file_resolved, hpnf, hcreate, hok, he2]
      · intro f hf2
        rw [hred]
        simp [open_file_resolved, hpnf, hcreate, hok, hf2]
  · intro f hap
    simp [initial_offset, hap]
  · intro f s hap hs
    simp [initial_offset, hap, hs]
  · intro f e hap hs
    simp [initial_offset, hap, hs]

/-- C2 (witness): a concrete run of the create-and-retry path — the
backend answers `PathNotFound`, the create succeeds, the retried open
succeeds with a zero-size file — under option `Create | Write`,
producing a handle with cursor 0 and the call trace
open, create(attr 0, size 0), open. -/
theorem open_file_create_fallback_witness :
    open_file (fun _ _ => ⟨.error .pathNotFound, .ok (), .ok ⟨.ok 0⟩⟩)
      "sdmc:/f".toList ⟨true, false, true, false⟩
      ⟨true, [⟨⟨"sdmc:".toList, .root⟩, 3⟩]⟩ =
    (.ok ⟨⟨.ok 0⟩, 0⟩,
      [.openCall ⟨false, true, false⟩, .createCall 0 0, .openCall ⟨false, true, false⟩]) := by
  have h := open_file_create_fallback (fun _ _ => ⟨.error .pathNotFound, .ok (), .ok ⟨.ok 0⟩⟩)
    "sdmc:/f".toList ⟨true, false, true, false⟩
    ⟨true, [⟨⟨"sdmc:".toList, .root⟩, 3⟩]⟩
    [⟨"sdmc:".toList, .root⟩, ⟨"f".toList, .normal⟩] 3
    (by decide) (by decide) (by decide)
  have h2 := ((h.2.2.1 rfl rfl).2 rfl).2 ⟨.ok 0⟩ rfl
  simpa [initial_offset, size_events] using h2

/-- C10: the directory-handle invariant `cursor ≤ buffered length` is
established by `Directory::new` and preserved by `refresh`, `next` and
`rewind` (whenever the backend calls involved return successfully);
moreover after any successful `refresh` the cursor is strictly below the
buffered length, which is exactly the bound making the `entries[offset]`
indexing inside `next()` in-bounds whenever it is reached (it is reached
only right after a successful `refresh`). -/
theorem directory_cursor_invariant :
    (∀ (dob : DirObj) (d : Directory), Directory.new dob = .ok d → dirInv d) ∧
    (∀ d d2 : Directory, dirInv d → d.refresh = .ok d2 → dirInv d2) ∧
    (∀ d d2 : Directory, dirInv d → d.refresh = .ok d2 →
      d2.offset < d2.entries.length) ∧
    (∀ (d : Directory) (o : Option Nat) (d2 : Directory),
      dirInv d → d.next = .ok (o, d2) → dirInv d2) ∧
    (∀ d d2 : Directory, dirInv d → d.rewind = .ok d2 → dirInv d2) :=
  ⟨dir_new_inv,
    fun d d2 hinv h => Nat.le_of_lt (dir_refresh_spec d d2 hinv h).1,
    fun d d2 hinv h => (dir_refresh_spec d d2 hinv h).1,
    fun d o d2 hinv h => dir_next_inv d o d2 hinv h,
    fun d d2 _ h => dir_rewind_inv d d2 h⟩

/-- C10 (witness): a concrete handle with cursor 0 and empty buffer
satisfies the invariant; refreshing it against a backend that reports 0
entries appends the whole zero-padded batch and leaves the cursor 0
strictly below the new buffered length 16. -/
theorem directory_cursor_invariant_witness :
    dirInv (⟨fun _ => .ok (0, []), 0, 0, 5, []⟩ : Directory) ∧
    (⟨fun _ => .ok (0, []), 1, 0, 5, List.replicate 16 0⟩ : Directory).offset <
      (⟨fun _ => .ok (0, []), 1, 0, 5, List.replicate 16 0⟩ : Directory).entries.length := by
  refine ⟨Nat.le_refl 0, ?_⟩
  have h := directory_cursor_invariant.2.2.1
    ⟨fun _ => .ok (0, []), 0, 0, 5, []⟩
    ⟨fun _ => .ok (0, []), 1, 0, 5, List.replicate 16 0⟩
    (Nat.le_refl 0) rfl
  exact h

/-- Sanity check of the parser pair: `"sdmc:/a/../b"` unpacks to the root
`"sdmc:"` followed by the single normal segment `"b"` (the `".."` removed
`"a"`), and repacking without the root yields `"/b"`. -/
lemma unpack_pack_example :
    unpack_path "sdmc:/a/../b".toList =
      .ok [⟨"sdmc:".toList, .root⟩, ⟨"b".toList, .normal⟩] ∧
    pack_path [⟨"sdmc:".toList, .root⟩, ⟨"b".toList, .normal⟩] false = "/b".toList := by
  decide

end NxFs
